import Mathlib

/-!
Verification of `src/claude_autoapprove_mcp/autoapprove_server.py`.

The Python program is orchestration glue over OS process APIs.  We shallow-embed
it as follows:

* a process attribute read (`proc.name()`, `proc.cmdline()`, `proc.exe()`) may
  raise one of the three tolerated psutil exceptions; we model such a read as an
  `Except PsError` value supplied by the environment;
* the OS process table visited by `psutil.process_iter` is a `List Proc`;
* the parent relation used by the parent-chain walks is a function
  `Nat → Option Nat` (pid of the parent, or `none` at the top of the chain);
  the walks of `get_main_claude_process` are written with explicit fuel, since
  the Python `while current:` loops have no cycle protection and can diverge;
* subprocess invocations and the external collaborators (`is_port_open`,
  `start_claude`, `get_trusted_tools`, `inject_script`, `mcp.run`) are inputs
  of the model or recorded events.

Python's substring test `needle in hay` is modelled by `strContains`;
`str(proc.cmdline())` is modelled as the stringified command line directly,
since the program only ever uses the string form.
-/

/-- One of the three psutil exceptions tolerated by the program:
`psutil.NoSuchProcess`, `psutil.AccessDenied`, `psutil.ZombieProcess`. -/
inductive PsError
  | noSuchProcess
  | accessDenied
  | zombie
deriving DecidableEq, Repr

/-- Character-list equality test for a leading segment (helper for `strContains`). -/
def strHeadMatch : List Char → List Char → Bool
  | [], _ => true
  | _ :: _, [] => false
  | a :: as, b :: bs => a == b && strHeadMatch as bs

/-- Containment of `needle` in a character list (helper for `strContains`). -/
def listContainsSub (needle : List Char) : List Char → Bool
  | [] => needle.isEmpty
  | h :: t => strHeadMatch needle (h :: t) || listContainsSub needle t

/-- Python's `needle in hay` on strings. -/
def strContains (hay needle : String) : Bool :=
  listContainsSub needle.toList hay.toList

/-- Python's `str.lower()`: lowercase the string character by character. -/
def strToLower (s : String) : String :=
  String.mk (s.toList.map Char.toLower)

/-- The platform discriminator `sys.platform` as used by the program:
`"darwin"`, `"win32"`, or a platform starting with `"linux"`. -/
inductive Platform
  | darwin
  | win32
  | linux
deriving DecidableEq, Repr

/-- A process as seen by `find_claude_process`: its pid together with the
outcome of reading `proc.name()` and `str(proc.cmdline())`, either yielding a
value or raising one of the three tolerated psutil exceptions. -/
structure Proc where
  pid : Nat
  name : Except PsError String
  cmdline : Except PsError String

/-- The platform-specific body of the `try` block in `find_claude_process`
(lines 34-44): evaluates the Python condition for the process, propagating a
raised psutil exception, with Python's left-to-right short-circuit of `or`. -/
def procMatches (plat : Platform) (p : Proc) : Except PsError Bool :=
  match plat with
  | .darwin =>
    -- if proc.name() == "Claude" or "Claude.app" in str(proc.cmdline())
    match p.name with
    | .error e => .error e
    | .ok n =>
      if n == "Claude" then .ok true
      else
        match p.cmdline with
        | .error e => .error e
        | .ok c => .ok (strContains c "Claude.app")
  | .win32 =>
    -- if "Claude.exe" in str(proc.name()) or "Claude.exe" in str(proc.cmdline())
    match p.name with
    | .error e => .error e
    | .ok n =>
      if strContains n "Claude.exe" then .ok true
      else
        match p.cmdline with
        | .error e => .error e
        | .ok c => .ok (strContains c "Claude.exe")
  | .linux =>
    -- if "Claude" in str(proc.name()) or "Claude" in str(proc.cmdline())
    match p.name with
    | .error e => .error e
    | .ok n =>
      if strContains n "Claude" then .ok true
      else
        match p.cmdline with
        | .error e => .error e
        | .ok c => .ok (strContains c "Claude")

/-- The function `find_claude_process` (lines 26-47): scan the process table in
order; a candidate whose condition evaluates to true is returned; a candidate
whose attribute read raises one of the three tolerated exceptions is skipped
(`except ...: pass`); if no candidate matches, return `None`. -/
def find_claude_process (plat : Platform) : List Proc → Option Proc
  | [] => none
  | p :: rest =>
    match procMatches plat p with
    | .ok true => some p
    | .ok false => find_claude_process plat rest
    | .error _ => find_claude_process plat rest

/-- Attributes of a process as read by `get_main_claude_process`:
`current.exe()` and `current.name()`, each either yielding a value or raising
one of the three tolerated psutil exceptions. -/
structure ProcAttrs where
  exe : Except PsError String
  name : Except PsError String

/-- The process world seen by the parent-chain walks: per-pid attributes and
the parent relation (`current.parent()`, `none` when the chain ends). -/
structure PTable where
  attr : Nat → ProcAttrs
  parent : Nat → Option Nat

/-- First `while current:` loop of `get_main_claude_process` (lines 59-66),
with explicit fuel since the Python loop has no cycle protection.  A failed
`current.exe()` read is caught and treated as the empty path; the walk returns
the first ancestor whose executable path contains `Contents/MacOS/Claude`.
Outer `none` means the fuel ran out (the Python loop would still be running);
`some (some pid)` is `return current`; `some none` is falling out of the loop. -/
def walk1 (t : PTable) : Nat → Option Nat → Option (Option Nat)
  | _, none => some none
  | 0, some _ => none
  | fuel + 1, some pid =>
    let exe_path :=
      match (t.attr pid).exe with
      | .ok s => s
      | .error _ => ""
    if strContains exe_path "Contents/MacOS/Claude" then some (some pid)
    else walk1 t fuel (t.parent pid)

/-- Second `while current:` loop of `get_main_claude_process` (lines 68-75),
with explicit fuel.  The read `current.name()` on line 71 is NOT wrapped in a
try/except, so a raised psutil exception propagates out of the function: the
walk result is then `some (.error e)`.  Otherwise the walk records the last
ancestor whose lowercased name is `claude` or `claude.exe` in `cand` and
returns it (possibly `none`) when the chain ends. -/
def walk2 (t : PTable) : Nat → Option Nat → Option Nat → Option (Except PsError (Option Nat))
  | _, none, cand => some (.ok cand)
  | 0, some _, _ => none
  | fuel + 1, some pid, cand =>
    match (t.attr pid).name with
    | .error e => some (.error e)
    | .ok n =>
      let lname := strToLower n
      let cand2 := if lname = "claude" ∨ lname = "claude.exe" then some pid else cand
      walk2 t fuel (t.parent pid) cand2

/-- The function `get_main_claude_process` (lines 50-75): run the first walk
from the current process `startPid`; on a match return it, otherwise run the
fallback walk from `startPid` again.  Outer `none` models divergence of a
`while` loop; `some (.error e)` models an uncaught psutil exception escaping
to the caller; `some (.ok r)` is a normal return. -/
def get_main_claude_process (t : PTable) (startPid : Nat) (fuel : Nat) :
    Option (Except PsError (Option Nat)) :=
  match walk1 t fuel (some startPid) with
  | none => none
  | some (some pid) => some (.ok (some pid))
  | some none => walk2 t fuel (some startPid) none

/-- Termination of the first parent-chain walk from a given start pid:
some amount of fuel suffices for the loop to finish. -/
def walk1Terminates (t : PTable) (start : Nat) : Prop :=
  ∃ n, walk1 t n (some start) ≠ none

/-- Termination of the fallback parent-chain walk from a given start pid. -/
def walk2Terminates (t : PTable) (start : Nat) : Prop :=
  ∃ n, walk2 t n (some start) none ≠ none

/-- Bounded check that the parent chain starting at `cur` reaches `none`
within `n` steps. -/
def parentChainEnds (t : PTable) : Nat → Option Nat → Bool
  | _, none => true
  | 0, some _ => false
  | n + 1, some pid => parentChainEnds t n (t.parent pid)

/-- The per-platform condition, taken from the spec sentence of the claim, that
a process carries no app-identifying substring: its readable name and command
line contain none of the platform's identifying strings.  A read that raises is
unconstrained (such a candidate is skipped anyway). -/
def noIdSubstring (plat : Platform) (p : Proc) : Prop :=
  match plat with
  | .darwin =>
    (∀ n, p.name = Except.ok n → n ≠ "Claude") ∧
    (∀ c, p.cmdline = Except.ok c → strContains c "Claude.app" = false)
  | .win32 =>
    (∀ n, p.name = Except.ok n → strContains n "Claude.exe" = false) ∧
    (∀ c, p.cmdline = Except.ok c → strContains c "Claude.exe" = false)
  | .linux =>
    (∀ n, p.name = Except.ok n → strContains n "Claude" = false) ∧
    (∀ c, p.cmdline = Except.ok c → strContains c "Claude" = false)

/-- The table `t` with every raised `exe` read replaced by a successful read of
the empty path.  Comparing walks over `t` and over `exeErrAsEmpty t` expresses
that the first walk treats a failed executable-path read as an empty path. -/
def exeErrAsEmpty (t : PTable) : PTable where
  attr := fun pid =>
    { exe := Except.ok (match (t.attr pid).exe with
        | .ok s => s
        | .error _ => "")
      name := (t.attr pid).name }
  parent := t.parent

/-- Events observable on the signal-based termination path of
`kill_claude_process` (lines 108-123). -/
inductive KEvent
  | terminateChild (pid : Nat)
  | terminateMain (pid : Nat)
  | waitProcs (pids : List Nat) (timeout : Nat)
  | forceKill (pid : Nat)
deriving DecidableEq, Repr

/-- Result of a run of `kill_claude_process`: the returned boolean, whether the
signal-based fallback section (lines 104-126) was reached, and the events of a
successful signal-path run. -/
structure KillOutcome where
  result : Bool
  usedSignalPath : Bool
  events : List KEvent
deriving DecidableEq, Repr

/-- Environment of the signal-based termination path: the outcome of each
psutil call made inside the `try` block of lines 109-123.  `childrenOf` is
`proc.children(recursive=True)` for the located process (a snapshot),
`termOp pid` is `Process.terminate()` on `pid`, `waitResult` is the `alive`
list from `psutil.wait_procs(..., timeout=5)`, and `killOp pid` is
`Process.kill()` on `pid`.  Each may raise, modelled as `Except String`. -/
structure TermWorld where
  childrenOf : Except String (List Nat)
  termOp : Nat → Except String Unit
  waitResult : Except String (List Nat)
  killOp : Nat → Except String Unit

/-- The `for child in children: child.terminate()` loop (lines 111-113):
terminate children in order, propagating the first exception. -/
def signalChildren (w : TermWorld) : List Nat → Except String (List KEvent)
  | [] => .ok []
  | c :: cs =>
    match w.termOp c with
    | .error e => .error e
    | .ok _ =>
      match signalChildren w cs with
      | .error e => .error e
      | .ok evs => .ok (KEvent.terminateChild c :: evs)

/-- The `for p in alive: p.kill()` loop (lines 121-122): force-kill the listed
processes in order, propagating the first exception.  (The `if alive:` guard
is behaviourally the identity when the list is empty.) -/
def forceKillAll (w : TermWorld) : List Nat → Except String (List KEvent)
  | [] => .ok []
  | p :: ps =>
    match w.killOp p with
    | .error e => .error e
    | .ok _ =>
      match forceKillAll w ps with
      | .error e => .error e
      | .ok evs => .ok (KEvent.forceKill p :: evs)

/-- The `try` block of the signal-based path (lines 109-123): enumerate the
children snapshot, terminate each child then the parent, wait on
`[proc] + children` with the fixed timeout 5, force-kill the survivors.
Returns the event trace, or the first raised exception. -/
def killFallbackTry (w : TermWorld) (pid : Nat) : Except String (List KEvent) :=
  match w.childrenOf with
  | .error e => .error e
  | .ok children =>
    match signalChildren w children with
    | .error e => .error e
    | .ok cevs =>
      match w.termOp pid with
      | .error e => .error e
      | .ok _ =>
        match w.waitResult with
        | .error e => .error e
        | .ok alive =>
          match forceKillAll w alive with
          | .error e => .error e
          | .ok kevs =>
            .ok (cevs ++ [KEvent.terminateMain pid, KEvent.waitProcs (pid :: children) 5] ++ kevs)

/-- The signal-based section of `kill_claude_process` (lines 104-126), given
the value of `proc = get_main_claude_process() or find_claude_process()`
(modelled separately; here the located pid or `none`).  If no process was
located, return `False`; otherwise run the `try` block and return `True`,
or catch any exception, log it and return `False` (line 126). -/
def killFallback (w : TermWorld) (located : Option Nat) : KillOutcome :=
  match located with
  | none => ⟨false, true, []⟩
  | some pid =>
    match killFallbackTry w pid with
    | .ok evs => ⟨true, true, evs⟩
    | .error _ => ⟨false, true, []⟩

/-- Environment of `kill_claude_process`: the platform, the outcome of the
native quit/kill `subprocess.run` invocation (`osascript` on macOS, `taskkill`
on Windows; `check=False`, so only a raised exception is a failure), the
result of locating the target process, and the signal-path environment. -/
structure KillWorld where
  plat : Platform
  nativeRun : Except String Unit
  located : Option Nat
  tw : TermWorld

/-- The function `kill_claude_process` (lines 78-126): on macOS and Windows
try the platform-native mechanism first and return `True` immediately if it
did not raise; only on an exception (after logging) fall through to the
signal-based path.  On other platforms go directly to the signal-based path. -/
def kill_claude_process (w : KillWorld) : KillOutcome :=
  match w.plat with
  | .darwin =>
    match w.nativeRun with
    | .ok _ => ⟨true, false, []⟩
    | .error _ => killFallback w.tw w.located
  | .win32 =>
    match w.nativeRun with
    | .ok _ => ⟨true, false, []⟩
    | .error _ => killFallback w.tw w.located
  | .linux => killFallback w.tw w.located

/-- Exceptions `start_claude` can raise, as distinguished by the two `except`
clauses of `main` (lines 222-225): `TimeoutError`, or any other exception. -/
inductive LaunchError
  | timeoutError
  | otherError (msg : String)
deriving DecidableEq, Repr

/-- Observable events of a run of `main` (lines 195-231). -/
inductive MainEvent
  | killAttempt (result : Bool)
  | startClaudeCall
  | logLaunchTimeout
  | logLaunchError
  | injectScript
  | mcpRun
deriving DecidableEq, Repr

/-- Environment of `main`: the parsed arguments' hidden `--daemon` flag, the
probe result `is_port_open(args.port)`, the environment of
`kill_claude_process`, and the outcome of the external collaborator
`start_claude(port=args.port)`. -/
structure MainWorld where
  daemon : Bool
  portOpen : Bool
  kw : KillWorld
  startClaude : Except LaunchError Unit

/-- How a run of `main`'s non-daemon body ends: an ordinary `return`, or
running the Control Server (`mcp.run()`, which takes over the thread). -/
inductive MainOutcome
  | returned
  | serverRunning
deriving DecidableEq, Repr

/-- The non-daemon body of `main` (lines 208-231).  When the port probe is
false: call `kill_claude_process` (its result only selects a log line), call
`start_claude` with both exception classes caught and logged, then `return`
unconditionally (line 227).  When the probe is true: run `inject_script` and
then `mcp.run()`. -/
def mainBody (w : MainWorld) : MainOutcome × List MainEvent :=
  if w.portOpen = false then
    let kr := kill_claude_process w.kw
    let launchEvs :=
      match w.startClaude with
      | .ok _ => [MainEvent.startClaudeCall]
      | .error .timeoutError => [MainEvent.startClaudeCall, MainEvent.logLaunchTimeout]
      | .error (.otherError _) => [MainEvent.startClaudeCall, MainEvent.logLaunchError]
    (MainOutcome.returned, MainEvent.killAttempt kr.result :: launchEvs)
  else
    (MainOutcome.serverRunning, [MainEvent.injectScript, MainEvent.mcpRun])

/-- The function `main` (lines 195-231) with explicit fuel, following the
POSIX daemon path: when `args.daemon` is set, `start_in_background` (lines
183-192) forks — the parent exits without running anything further, and the
daemonized child calls `main(args)` again with the same argument object, whose
daemon flag is still true (line 188).  We follow the child line, the only line
that could ever reach the server; the recursion is fuelled because it never
reaches the non-daemon body.  `none` models a line of processes that is still
forking. -/
def mainFuel (w : MainWorld) : Nat → Option (MainOutcome × List MainEvent)
  | 0 => none
  | fuel + 1 =>
    if w.daemon then mainFuel w fuel
    else some (mainBody w)

/-- The tool `autoapproved_tools` (lines 242-247): returns
`get_trusted_tools(claude_config)`.  Both `get_trusted_tools` and the
module-level `claude_config` are external collaborators from the
`claude_autoapprove` package, modelled as parameters. -/
def autoapproved_tools {Config : Type} (get_trusted_tools : Config → List String)
    (claude_config : Config) : List String :=
  get_trusted_tools claude_config

/-- Concrete process world: the sole relevant process 0 has no parent and both
of its attribute reads raise `AccessDenied`. -/
def tErr : PTable where
  attr := fun _ => ⟨Except.error PsError.accessDenied, Except.error PsError.accessDenied⟩
  parent := fun _ => none

/-- Concrete process world: process 0 is its own parent, its executable path
reads as the empty-ish path `/bin/x` and its name as `x`, so neither walk ever
returns early. -/
def tLoop : PTable where
  attr := fun _ => ⟨Except.ok "/bin/x", Except.ok "x"⟩
  parent := fun _ => some 0

/-- Concrete process world: every process reads cleanly and has no parent
(the chain ends at once). -/
def tEnd : PTable where
  attr := fun _ => ⟨Except.ok "/usr/bin/env", Except.ok "env"⟩
  parent := fun _ => none

/-- Concrete process: a shell, carrying no Claude-identifying substring. -/
def pBash : Proc := ⟨101, Except.ok "bash", Except.ok "['/bin/bash']"⟩

/-- Concrete process whose attribute reads raise `NoSuchProcess`. -/
def pErrA : Proc := ⟨1, Except.error PsError.noSuchProcess, Except.error PsError.noSuchProcess⟩

/-- Concrete process whose name read raises `ZombieProcess`. -/
def pErrB : Proc := ⟨3, Except.error PsError.zombie, Except.ok "['/opt/x']"⟩

/-- Concrete process that is a valid Claude match on every platform. -/
def pGood : Proc := ⟨2, Except.ok "Claude", Except.ok "['/usr/bin/Claude.app/Claude.exe']"⟩

/-- Concrete signal-path environment in which every psutil call succeeds:
the located process has children 7 and 8, and 8 survives the bounded wait. -/
def twOk : TermWorld where
  childrenOf := Except.ok [7, 8]
  termOp := fun _ => Except.ok ()
  waitResult := Except.ok [8]
  killOp := fun _ => Except.ok ()

/-- Concrete kill environment: macOS, the AppleScript quit invocation does not
raise, and a target process exists. -/
def kwDarwinOk : KillWorld := ⟨Platform.darwin, Except.ok (), some 42, twOk⟩

/-- Concrete kill environment: Linux, no target process located, so
`kill_claude_process` returns false. -/
def kwLinuxNone : KillWorld := ⟨Platform.linux, Except.ok (), none, twOk⟩

/-- Concrete main environment: no daemon flag, port probe false, the
Terminator finds nothing (and hence fails), `start_claude` succeeds. -/
def mwPortClosed : MainWorld := ⟨false, false, kwLinuxNone, Except.ok ()⟩

/-- Concrete main environment with the hidden daemon flag set. -/
def mwDaemon : MainWorld := ⟨true, false, kwLinuxNone, Except.ok ()⟩

/-- Any process returned by `find_claude_process` is in the table and its
platform condition evaluated to true without raising. -/
theorem find_claude_process_sound (plat : Platform) (table : List Proc) (p : Proc)
    (h : find_claude_process plat table = some p) :
    p ∈ table ∧ procMatches plat p = Except.ok true := by
  induction table with
  | nil => simp [find_claude_process] at h
  | cons q rest ih =>
    rw [find_claude_process] at h
    rcases hm : procMatches plat q with e | b
    · rw [hm] at h
      rcases ih h with ⟨hmem, hok⟩
      exact ⟨List.mem_cons_of_mem q hmem, hok⟩
    · rcases b with _ | _
      · rw [hm] at h
        rcases ih h with ⟨hmem, hok⟩
        exact ⟨List.mem_cons_of_mem q hmem, hok⟩
      · rw [hm] at h
        injection h with h2
        subst h2
        exact ⟨List.mem_cons_self _ _, hm⟩

/-- C8.  For every process of the scanned table whose name and command line
contain no app-identifying substring for the current platform (macOS: name
equal to "Claude" or "Claude.app" in the command line; Windows: "Claude.exe"
in name or command line; Linux: "Claude" as a case-sensitive substring of name
or command line), `find_claude_process` never returns that process. -/
theorem find_claude_process_never_selects_unidentified (plat : Platform)
    (table : List Proc) (p : Proc) (hno : noIdSubstring plat p) :
    find_claude_process plat table ≠ some p := by
  intro hfind
  have hok := (find_claude_process_sound plat table p hfind).2
  cases plat with
  | darwin =>
    rcases hno with ⟨hname, hcmd⟩
    rcases hn : p.name with e | n
    · simp [procMatches, hn] at hok
    · have hne : n ≠ "Claude" := hname n hn
      rcases hc : p.cmdline with e | c
      · simp [procMatches, hn, hc, hne] at hok
      · have hcf := hcmd c hc
        simp [procMatches, hn, hc, hne, hcf] at hok
  | win32 =>
    rcases hno with ⟨hname, hcmd⟩
    rcases hn : p.name with e | n
    · simp [procMatches, hn] at hok
    · have hne := hname n hn
      rcases hc : p.cmdline with e | c
      · simp [procMatches, hn, hc, hne] at hok
      · have hcf := hcmd c hc
        simp [procMatches, hn, hc, hne, hcf] at hok
  | linux =>
    rcases hno with ⟨hname, hcmd⟩
    rcases hn : p.name with e | n
    · simp [procMatches, hn] at hok
    · have hne := hname n hn
      rcases hc : p.cmdline with e | c
      · simp [procMatches, hn, hc, hne] at hok
      · have hcf := hcmd c hc
        simp [procMatches, hn, hc, hne, hcf] at hok

/-- Witness for C8: a shell process on Linux is never selected. -/
theorem find_claude_process_never_selects_unidentified_witness :
    find_claude_process Platform.linux [pBash] ≠ some pBash := by
  refine find_claude_process_never_selects_unidentified Platform.linux [pBash] pBash ?_
  refine ⟨?_, ?_⟩
  · intro n hn
    injection hn with h
    subst h
    decide
  · intro c hc
    injection hc with h
    subst h
    decide

/-- C9.  If one process of the table satisfies the platform condition and the
attribute reads of every other process raise a tolerated psutil exception,
`find_claude_process` skips the raising candidates, completes the scan and
returns the one valid match. -/
theorem find_claude_process_skips_raisers (plat : Platform) (table : List Proc)
    (p : Proc) (hmem : p ∈ table) (hp : procMatches plat p = Except.ok true)
    (hothers : ∀ q ∈ table, q ≠ p → ∃ e, procMatches plat q = Except.error e) :
    find_claude_process plat table = some p := by
  induction table with
  | nil => simp at hmem
  | cons q rest ih =>
    by_cases hqp : q = p
    · subst hqp
      rw [find_claude_process, hp]
    · rcases hothers q (List.mem_cons_self q rest) hqp with ⟨e, he⟩
      rw [find_claude_process, he]
      have hmem2 : p ∈ rest := by
        rcases List.mem_cons.mp hmem with h | h
        · exact absurd h.symm hqp
        · exact h
      exact ih hmem2 fun r hr hrp => hothers r (List.mem_cons_of_mem q hr) hrp

/-- Witness for C9: on Linux, a table whose first and last candidates raise
still yields the single valid match in the middle. -/
theorem find_claude_process_skips_raisers_witness :
    find_claude_process Platform.linux [pErrA, pGood, pErrB] = some pGood := by
  refine find_claude_process_skips_raisers Platform.linux [pErrA, pGood, pErrB]
    pGood (by simp) rfl ?_
  intro q hq hqp
  simp only [List.mem_cons, List.not_mem_nil, or_false] at hq
  rcases hq with h | h | h
  · exact ⟨PsError.noSuchProcess, by rw [h]; rfl⟩
  · exact absurd h hqp
  · exact ⟨PsError.zombie, by rw [h]; rfl⟩

/-- Counterexample to C2 as stated: in the world `tErr`, the first walk falls
through (a raised exe read is treated as an empty path), but the fallback
walk's unprotected `current.name()` read raises `AccessDenied` and the
exception propagates out of `get_main_claude_process` to the caller. -/
theorem get_main_claude_process_error_propagates :
    get_main_claude_process tErr 0 1 = some (Except.error PsError.accessDenied) := rfl

/-- C2 amended.  Attribute-read errors in `find_claude_process` and in the
first walk of `get_main_claude_process` are caught at the point of occurrence:
a raising candidate is skipped by the scan, and a failed executable-path read
is treated as an empty path (the first walk is unchanged when every raised exe
read is replaced by a successful read of "").  In the second walk, however,
the `current.name()` read is unprotected, and a raised psutil exception
propagates to the caller. -/
theorem attribute_errors_caught_except_fallback_name :
    (∀ (t : PTable) (fuel : Nat) (cur : Option Nat),
      walk1 t fuel cur = walk1 (exeErrAsEmpty t) fuel cur) ∧
    (∀ (plat : Platform) (p : Proc) (rest : List Proc) (e : PsError),
      procMatches plat p = Except.error e →
      find_claude_process plat (p :: rest) = find_claude_process plat rest) ∧
    (∀ (t : PTable) (fuel pid : Nat) (cand : Option Nat) (e : PsError),
      (t.attr pid).name = Except.error e →
      walk2 t (fuel + 1) (some pid) cand = some (Except.error e)) := by
  refine ⟨?_, ?_, ?_⟩
  · intro t fuel
    induction fuel with
    | zero => intro cur; cases cur <;> rfl
    | succ k ih =>
      intro cur
      cases cur with
      | none => rfl
      | some pid =>
        cases hx : (t.attr pid).exe with
        | ok s =>
          simp only [walk1, exeErrAsEmpty, hx]
          split
          · rfl
          · exact ih (t.parent pid)
        | error e =>
          simp only [walk1, exeErrAsEmpty, hx]
          split
          · rfl
          · exact ih (t.parent pid)
  · intro plat p rest e he
    rw [find_claude_process, he]
  · intro t fuel pid cand e he
    rw [walk2, he]

/-- Witness for the amended C2: in the world `tErr`, the normalized first walk
agrees with the original, a raising head candidate is skipped by the scan, and
the fallback walk surfaces the raised name read. -/
theorem attribute_errors_caught_except_fallback_name_witness :
    walk1 tErr 1 (some 0) = walk1 (exeErrAsEmpty tErr) 1 (some 0) ∧
    find_claude_process Platform.linux [pErrA, pGood] =
      find_claude_process Platform.linux [pGood] ∧
    walk2 tErr 1 (some 0) none = some (Except.error PsError.accessDenied) :=
  ⟨attribute_errors_caught_except_fallback_name.1 tErr 1 (some 0),
   attribute_errors_caught_except_fallback_name.2.1 Platform.linux pErrA [pGood]
     PsError.noSuchProcess rfl,
   attribute_errors_caught_except_fallback_name.2.2 tErr 0 0 none
     PsError.accessDenied rfl⟩

/-- Fallback walk in the looping world: each step leaves the state unchanged,
so no amount of fuel finishes the loop. -/
theorem walk2_tLoop_diverges : ∀ (n : Nat) (cand : Option Nat),
    walk2 tLoop n (some 0) cand = none := by
  intro n
  induction n with
  | zero => intro cand; rfl
  | succ k ih => intro cand; exact ih cand

/-- First walk in the looping world: each step leaves the state unchanged,
so no amount of fuel finishes the loop. -/
theorem walk1_tLoop_diverges : ∀ n : Nat, walk1 tLoop n (some 0) = none := by
  intro n
  induction n with
  | zero => rfl
  | succ k ih => exact ih

/-- Counterexample to C4 as stated: in the world `tLoop`, where process 0 is
its own parent and never matches, neither parent-chain walk of
`get_main_claude_process` terminates — the Python `while current:` loops have
no cycle protection. -/
theorem parent_chain_walks_diverge_on_cycle :
    ¬ walk1Terminates tLoop 0 ∧ ¬ walk2Terminates tLoop 0 := by
  constructor
  · rintro ⟨n, hn⟩
    exact hn (walk1_tLoop_diverges n)
  · rintro ⟨n, hn⟩
    exact hn (walk2_tLoop_diverges n none)

/-- First walk finishes within the fuel bound whenever the parent chain
reaches a process with no parent within that bound. -/
theorem walk1_ends_of_chain_ends (t : PTable) :
    ∀ (n : Nat) (cur : Option Nat), parentChainEnds t n cur = true →
      walk1 t n cur ≠ none := by
  intro n
  induction n with
  | zero =>
    intro cur h
    cases cur with
    | none => simp [walk1]
    | some pid => simp [parentChainEnds] at h
  | succ k ih =>
    intro cur h
    cases cur with
    | none => simp [walk1]
    | some pid =>
      rw [walk1]
      split
      · simp
      · exact ih (t.parent pid) h

/-- Fallback walk finishes within the fuel bound whenever the parent chain
reaches a process with no parent within that bound (a raised name read also
finishes the walk, by propagating). -/
theorem walk2_ends_of_chain_ends (t : PTable) :
    ∀ (n : Nat) (cur cand : Option Nat), parentChainEnds t n cur = true →
      walk2 t n cur cand ≠ none := by
  intro n
  induction n with
  | zero =>
    intro cur cand h
    cases cur with
    | none => simp [walk2]
    | some pid => simp [parentChainEnds] at h
  | succ k ih =>
    intro cur cand h
    cases cur with
    | none => simp [walk2]
    | some pid =>
      rw [walk2]
      cases hx : (t.attr pid).name with
      | error e => simp
      | ok nm =>
        exact ih (t.parent pid) _ h

/-- C4 amended.  Both parent-chain walks of `get_main_claude_process`
terminate for every starting process whose parent chain reaches a process
with no parent within a finite number of steps; on a parent chain that cycles
back to itself without an early return, neither loop terminates (see the
counterexample). -/
theorem parent_chain_walks_end_on_acyclic_chain (t : PTable) (start n : Nat)
    (h : parentChainEnds t n (some start) = true) :
    walk1 t n (some start) ≠ none ∧ walk2 t n (some start) none ≠ none :=
  ⟨walk1_ends_of_chain_ends t n (some start) h,
   walk2_ends_of_chain_ends t n (some start) none h⟩

/-- Witness for the amended C4: in the world `tEnd` the chain from process 0
ends at once and both walks finish with one unit of fuel. -/
theorem parent_chain_walks_end_on_acyclic_chain_witness :
    walk1 tEnd 1 (some 0) ≠ none ∧ walk2 tEnd 1 (some 0) none ≠ none :=
  parent_chain_walks_end_on_acyclic_chain tEnd 0 1 rfl

/-- C5.  On macOS and Windows, `kill_claude_process` returns true immediately
whenever the platform-native quit/kill invocation does not raise — for every
process world, i.e. without confirming that the target has exited and without
touching the signal-based path — and the signal-based path is reached only
when the native invocation raises. -/
theorem kill_native_path_returns_true_immediately (w : KillWorld)
    (hplat : w.plat = Platform.darwin ∨ w.plat = Platform.win32) :
    (∀ u, w.nativeRun = Except.ok u →
      kill_claude_process w = ⟨true, false, []⟩) ∧
    (∀ e, w.nativeRun = Except.error e →
      kill_claude_process w = killFallback w.tw w.located) := by
  rcases hplat with h | h <;>
    exact ⟨fun u hu => by simp [kill_claude_process, h, hu],
           fun e he => by simp [kill_claude_process, h, he]⟩

/-- Witness for C5: on macOS with a non-raising AppleScript quit, the function
returns true with the signal path untouched. -/
theorem kill_native_path_returns_true_immediately_witness :
    kill_claude_process kwDarwinOk = ⟨true, false, []⟩ :=
  (kill_native_path_returns_true_immediately kwDarwinOk (Or.inl rfl)).1 () rfl

/-- Terminating every child in order succeeds when no terminate call raises,
and yields one terminate event per child, in order. -/
theorem signalChildren_ok (w : TermWorld) :
    ∀ cs : List Nat, (∀ c ∈ cs, w.termOp c = Except.ok ()) →
      signalChildren w cs = Except.ok (cs.map KEvent.terminateChild) := by
  intro cs
  induction cs with
  | nil => intro _; rfl
  | cons c cs ih =>
    intro h
    rw [signalChildren, h c (List.mem_cons_self c cs),
      ih fun r hr => h r (List.mem_cons_of_mem c hr)]
    rfl

/-- Force-killing every survivor in order succeeds when no kill call raises,
and yields one force-kill event per survivor, in order. -/
theorem forceKillAll_ok (w : TermWorld) :
    ∀ ps : List Nat, (∀ p ∈ ps, w.killOp p = Except.ok ()) →
      forceKillAll w ps = Except.ok (ps.map KEvent.forceKill) := by
  intro ps
  induction ps with
  | nil => intro _; rfl
  | cons p ps ih =>
    intro h
    rw [forceKillAll, h p (List.mem_cons_self p ps),
      ih fun r hr => h r (List.mem_cons_of_mem p hr)]
    rfl

/-- C6.  On the signal-based path of `kill_claude_process`: with no located
process the result is false; otherwise, when every psutil call succeeds, the
children snapshot is terminated child by child before the parent, the set
{parent, children} is waited on with the fixed bound 5, survivors are
unconditionally force-killed, and the run returns true; in general the result
is true exactly when the try block completed without an exception (any raised
exception is caught and yields false). -/
theorem kill_signal_path_spec (w : TermWorld) :
    killFallback w none = ⟨false, true, []⟩ ∧
    (∀ (pid : Nat) (cs alive : List Nat), w.childrenOf = Except.ok cs →
      (∀ c ∈ cs, w.termOp c = Except.ok ()) →
      w.termOp pid = Except.ok () →
      w.waitResult = Except.ok alive →
      (∀ p ∈ alive, w.killOp p = Except.ok ()) →
      killFallback w (some pid) =
        ⟨true, true,
          cs.map KEvent.terminateChild ++
            [KEvent.terminateMain pid, KEvent.waitProcs (pid :: cs) 5] ++
            alive.map KEvent.forceKill⟩) ∧
    (∀ pid : Nat, (killFallback w (some pid)).result = true ↔
      ∃ evs, killFallbackTry w pid = Except.ok evs) := by
  refine ⟨rfl, ?_, ?_⟩
  · intro pid cs alive hch hterm hpid hwait hkill
    simp only [killFallback, killFallbackTry, hch, signalChildren_ok w cs hterm,
      hpid, hwait, forceKillAll_ok w alive hkill]
  · intro pid
    rw [killFallback]
    cases htry : killFallbackTry w pid with
    | ok evs => simp
    | error e => simp

/-- Witness for C6: in the all-succeeding world `twOk`, killing located
process 42 with children 7 and 8, of which 8 survives the wait, terminates
the children before the parent, waits with bound 5, force-kills 8 and
returns true. -/
theorem kill_signal_path_spec_witness :
    killFallback twOk (some 42) =
      ⟨true, true,
        [KEvent.terminateChild 7, KEvent.terminateChild 8,
         KEvent.terminateMain 42, KEvent.waitProcs [42, 7, 8] 5,
         KEvent.forceKill 8]⟩ :=
  (kill_signal_path_spec twOk).2.1 42 [7, 8] [8] rfl (fun _ _ => rfl) rfl rfl
    (fun _ _ => rfl)

/-- Counterexample to C1 as stated: in the world `mwPortClosed` the port probe
is false and `start_claude` completes without raising, yet `main` returns
without the injection step and without starting the Control Server — the
`return` on line 227 is unconditional, not reserved for the failure path. -/
theorem main_returns_even_on_successful_launch :
    mainFuel mwPortClosed 1 =
      some (MainOutcome.returned,
        [MainEvent.killAttempt false, MainEvent.startClaudeCall]) ∧
    MainEvent.mcpRun ∉ (mainBody mwPortClosed).2 ∧
    MainEvent.injectScript ∉ (mainBody mwPortClosed).2 := by
  refine ⟨rfl, ?_, ?_⟩ <;> decide

/-- C1 amended.  When the initial port probe is false, `main` returns without
running the injection step or the Control Server, regardless of whether
`start_claude` completed or raised; injection and server start happen only
when the initial probe is true. -/
theorem main_orchestrator_outcomes (w : MainWorld) :
    (w.portOpen = false →
      (mainBody w).1 = MainOutcome.returned ∧
      MainEvent.mcpRun ∉ (mainBody w).2 ∧
      MainEvent.injectScript ∉ (mainBody w).2) ∧
    (w.portOpen = true →
      mainBody w = (MainOutcome.serverRunning,
        [MainEvent.injectScript, MainEvent.mcpRun])) := by
  constructor
  · intro hport
    rcases hsc : w.startClaude with e | u
    · rcases e with _ | msg <;> simp [mainBody, hport, hsc]
    · simp [mainBody, hport, hsc]
  · intro hport
    simp [mainBody, hport]

/-- Witness for the amended C1: a closed world with the port probe false and a
successful launch still ends in a plain return without the server events. -/
theorem main_orchestrator_outcomes_witness :
    (mainBody mwPortClosed).1 = MainOutcome.returned ∧
    MainEvent.mcpRun ∉ (mainBody mwPortClosed).2 ∧
    MainEvent.injectScript ∉ (mainBody mwPortClosed).2 :=
  (main_orchestrator_outcomes mwPortClosed).1 rfl

/-- C3.  With the hidden daemon flag set, the POSIX daemon path never starts
the Control Server in any resulting process: the forking parent exits, and the
daemonized child re-enters `main` with the same argument object whose daemon
flag is still true, forking again — no amount of fuel reaches the non-daemon
body, so `mcp.run` is never reached on any process line. -/
theorem main_daemon_never_starts_server (w : MainWorld) (hd : w.daemon = true) :
    ∀ fuel, mainFuel w fuel = none := by
  intro fuel
  induction fuel with
  | zero => rfl
  | succ k ih => simp [mainFuel, hd, ih]

/-- Witness for C3: the daemon world never produces an outcome. -/
theorem main_daemon_never_starts_server_witness :
    mainFuel mwDaemon 7 = none :=
  main_daemon_never_starts_server mwDaemon rfl 7

/-- C7.  When the port probe is false, `main` first calls
`kill_claude_process` — whose boolean result only selects a log line — and
then invokes `start_claude` no matter what that result was: the launch
attempt is never blocked by a Terminator failure. -/
theorem main_launches_regardless_of_kill_result (w : MainWorld)
    (hport : w.portOpen = false) :
    (mainBody w).2.head? =
      some (MainEvent.killAttempt (kill_claude_process w.kw).result) ∧
    MainEvent.startClaudeCall ∈ (mainBody w).2 := by
  rcases hsc : w.startClaude with e | u
  · rcases e with _ | msg <;> simp [mainBody, hport, hsc]
  · simp [mainBody, hport, hsc]

/-- Witness for C7: in `mwPortClosed` the Terminator locates nothing and
returns false, and `start_claude` is still invoked. -/
theorem main_launches_regardless_of_kill_result_witness :
    (mainBody mwPortClosed).2.head? =
      some (MainEvent.killAttempt (kill_claude_process mwPortClosed.kw).result) ∧
    MainEvent.startClaudeCall ∈ (mainBody mwPortClosed).2 :=
  main_launches_regardless_of_kill_result mwPortClosed rfl

/-- C10.  `autoapproved_tools` returns exactly the Trusted Tool List yielded
by the configuration collaborator, in the same order, with no duplication,
omission, caching or transformation. -/
theorem autoapproved_tools_delegates_exactly {Config : Type}
    (get_trusted_tools : Config → List String) (claude_config : Config)
    (ts : List String) (h : get_trusted_tools claude_config = ts) :
    autoapproved_tools get_trusted_tools claude_config = ts :=
  h

/-- Witness for C10: a three-entry configuration yields exactly those three
entries in order. -/
theorem autoapproved_tools_delegates_exactly_witness :
    autoapproved_tools (fun _ : Unit => ["alpha", "beta", "gamma"]) () =
      ["alpha", "beta", "gamma"] :=
  autoapproved_tools_delegates_exactly (fun _ : Unit => ["alpha", "beta", "gamma"])
    () ["alpha", "beta", "gamma"] rfl
